import Mathlib

/-!
Verification development for the market-data acquisition layer and portfolio
operations of `trading_script.py`.

Modelling conventions of this shallow embedding:
* Calendar dates are integers counting days since the Unix epoch
  (1970-01-01, a Thursday).  All timestamps in the source are normalized to
  midnight at day granularity, so `pd.Timestamp.normalize()` is the identity
  here, and `tz_localize('Asia/Jakarta')` on a date-only timestamp does not
  change the calendar day.
* A pandas cell that may be NaN is modelled as `Option ℚ` with `none` for NaN.
* A DataFrame is a `Frame`: presence flags for the six OHLCV columns plus a
  list of rows, each row carrying its date index.  `df.empty` is `rows = []`.
* Network providers (yfinance, pandas-datareader, the Stooq CSV endpoint) are
  oracles packaged in a `Providers` record.  An oracle returning `none` models
  a raised exception / HTTP failure / unparsable body, which the source
  catches at the stage boundary.
* Fetch functions additionally return the list of provider requests actually
  issued (`List Call`); the `Frame` component is exactly the source's return
  value and the trace lets us state "stage X was never queried".
* A Python exception escaping a function is modelled by `Except.error`.
-/

/-- One row of an OHLCV frame.  `date` is the row's index (days since epoch);
each cell is `Option ℚ`, `none` standing for NaN. -/
structure Row where
  date : Int
  Open : Option ℚ
  High : Option ℚ
  Low : Option ℚ
  Close : Option ℚ
  AdjClose : Option ℚ
  Volume : Option ℚ
  deriving Repr, DecidableEq

/-- A pandas DataFrame over the OHLCV schema: which of the six columns are
present, plus the rows.  A cell of an absent column is junk and is never
read (the source would raise a KeyError). -/
structure Frame where
  hasOpen : Bool
  hasHigh : Bool
  hasLow : Bool
  hasClose : Bool
  hasAdjClose : Bool
  hasVolume : Bool
  rows : List Row
  deriving Repr, DecidableEq

/-- Model of `pd.DataFrame()`: no columns, no rows. -/
def Frame.empty : Frame :=
  ⟨false, false, false, false, false, false, []⟩

/-- Model of `pd.DataFrame(columns=["Open","High","Low","Close","Adj Close","Volume"])`:
the six columns present, no rows. -/
def Frame.emptySix : Frame :=
  ⟨true, true, true, true, true, true, []⟩

/-- All six OHLCV columns present. -/
def Frame.allCols (df : Frame) : Bool :=
  df.hasOpen && df.hasHigh && df.hasLow && df.hasClose && df.hasAdjClose && df.hasVolume

/-- Placeholder row used as the (unreachable) default of `getLast?`. -/
def dRow : Row := ⟨0, none, none, none, none, none, none⟩

/-- Source `dataclass FetchResult: df: pd.DataFrame; source: str`. -/
structure FetchResult where
  df : Frame
  source : String
  deriving Repr, DecidableEq

/-- The keyword arguments of a `yf.download` request that determine its data:
`period`, `start`, `end`.  (UI options `progress`, `threads`, `auto_adjust`
are plumbing that never influences the control flow modelled here.) -/
structure YahooQuery where
  period : Option String
  start : Option Int
  stop : Option Int
  deriving Repr, DecidableEq

/-- A provider network request issued during a fetch. -/
inductive Call where
  | yahoo (ticker : String) (q : YahooQuery)
  | pdr (symbol : String) (start stop : Int)
  | csv (symbol : String)
  deriving Repr, DecidableEq

/-- The external data providers, as oracles.  `none` models an exception
(network error, bad HTTP status, empty body, parse failure) raised by the
underlying call, which the source catches. -/
structure Providers where
  hasPdr : Bool
  yahoo : String → YahooQuery → Option Frame
  pdrStooq : String → Int → Int → Option Frame
  stooqCsv : String → Option Frame

/-- The frame actually obtained from an oracle answer (exception ⇒ empty). -/
def frameOf (o : Option Frame) : Frame :=
  match o with
  | some df => df
  | none => Frame.empty

/- ------------------------------------------------------------------
Python string primitives, as kernel-computable functions on the
character lists underlying Lean strings.  Tickers and period strings are
ASCII, so ASCII case mapping matches Python `str.upper` / `str.lower`.
------------------------------------------------------------------ -/

/-- ASCII uppercase of one character. -/
def chUpper (c : Char) : Char :=
  if 97 ≤ c.toNat ∧ c.toNat ≤ 122 then Char.ofNat (c.toNat - 32) else c

/-- ASCII lowercase of one character. -/
def chLower (c : Char) : Char :=
  if 65 ≤ c.toNat ∧ c.toNat ≤ 90 then Char.ofNat (c.toNat + 32) else c

/-- Python `s.upper()` (ASCII). -/
def strUpper (s : String) : String := ⟨s.data.map chUpper⟩

/-- Python `s.lower()` (ASCII). -/
def strLower (s : String) : String := ⟨s.data.map chLower⟩

/-- Python `s.startswith(p)`. -/
def strStartsWith (s p : String) : Bool := p.data.isPrefixOf s.data

/-- Python `s.endswith(p)`. -/
def strEndsWith (s p : String) : Bool := p.data.reverse.isPrefixOf s.data.reverse

/-- Python `s[:-n]`. -/
def strDropRight (s : String) (n : Nat) : String :=
  ⟨s.data.take (s.data.length - n)⟩

/-- Decimal digit test. -/
def isDigitCh (c : Char) : Bool := 48 ≤ c.toNat && c.toNat ≤ 57

/-- Value of a non-empty all-digit string. -/
def digitsVal? (cs : List Char) : Option Nat :=
  if cs.isEmpty then none
  else if cs.all isDigitCh then
    some (cs.foldl (fun acc c => acc * 10 + (c.toNat - 48)) 0)
  else none

/-- Python `int(s)`: optional sign then decimal digits; `none` models the
ValueError raised on anything else (empty string included). -/
def parseInt? (s : String) : Option Int :=
  match s.data with
  | '-' :: cs => (digitsVal? cs).map (fun n => -(n : Int))
  | '+' :: cs => (digitsVal? cs).map (fun n => (n : Int))
  | cs => (digitsVal? cs).map (fun n => (n : Int))

/- ------------------------------------------------------------------
Date helpers (source lines 153–176).
------------------------------------------------------------------ -/

/-- Model of `pd.Timestamp.weekday()`: Monday = 0 … Sunday = 6.  Day 0 of our epoch
(1970-01-01) is a Thursday, hence the `+ 3` anchor. -/
def weekday (d : Int) : Int := (d + 3) % 7

/-- Source `last_trading_date`: return last trading date (Mon–Fri), mapping
Sat/Sun → Fri.  The source's `tz_localize('Asia/Jakarta')` and
`.normalize()` are the identity at day granularity. -/
def last_trading_date (today : Int) : Int :=
  if weekday today = 5 then today - 1
  else if weekday today = 6 then today - 2
  else today

/- ------------------------------------------------------------------
Stooq symbol tables (source lines 184–193).
------------------------------------------------------------------ -/

/-- Source `STOOQ_MAP`: known Stooq symbol remaps for common indices. -/
def STOOQ_MAP (t : String) : Option String :=
  if t = "^GSPC" then some "^SPX"
  else if t = "^DJI" then some "^DJI"
  else if t = "^IXIC" then some "^IXIC"
  else if t = "^JKSE" then some "^JKSE"
  else none

/-- Source `STOOQ_BLOCKLIST`: symbols we should not attempt on Stooq. -/
def STOOQ_BLOCKLIST : List String := ["^RUT"]

/- ------------------------------------------------------------------
Normalization (source lines 205–221).
------------------------------------------------------------------ -/

/-- Source `_to_datetime_index`: coerce the index to datetime.  Dates are already
integers in this model, so the coercion is the identity. -/
def _to_datetime_index (df : Frame) : Frame := df

/-- Source `_normalize_ohlcv`: ensure the columns Open, High, Low, Close, Volume
exist (missing ones become NaN), set `Adj Close` to `Close` when absent, and
select the six columns in order.  Per row this reads each cell through its
presence flag. -/
def _normalize_ohlcv (df : Frame) : Frame :=
  { hasOpen := true, hasHigh := true, hasLow := true, hasClose := true,
    hasAdjClose := true, hasVolume := true,
    rows := df.rows.map (fun r =>
      let c : Option ℚ := if df.hasClose then r.Close else none
      { date := r.date
        Open := if df.hasOpen then r.Open else none
        High := if df.hasHigh then r.High else none
        Low := if df.hasLow then r.Low else none
        Close := c
        AdjClose := if df.hasAdjClose then r.AdjClose else c
        Volume := if df.hasVolume then r.Volume else none }) }

/- ------------------------------------------------------------------
Provider stages (source lines 223–292).
------------------------------------------------------------------ -/

/-- Source `_yahoo_download`: call `yf.download` and return its frame, or an empty
frame if the call raised (or did not return a DataFrame).  The second
component records the request issued. -/
def _yahoo_download (p : Providers) (ticker : String) (q : YahooQuery) :
    Frame × List Call :=
  (frameOf (p.yahoo ticker q), [Call.yahoo ticker q])

/-- Insert a row into a date-sorted list, keeping it sorted. -/
def insertByDate (r : Row) : List Row → List Row
  | [] => [r]
  | x :: xs => if r.date ≤ x.date then r :: x :: xs else x :: insertByDate r xs

/-- Model of `df.sort_index()`: sort rows ascending by date. -/
def sortByDate : List Row → List Row
  | [] => []
  | x :: xs => insertByDate x (sortByDate xs)

/-- Source `_stooq_download`: fetch OHLCV from Stooq via pandas-datareader; empty
frame (and no request) when the library is unavailable or the ticker is
blocklisted; empty frame on exception; otherwise the frame sorted by date. -/
def _stooq_download (p : Providers) (ticker : String) (start stop : Int) :
    Frame × List Call :=
  if ¬ p.hasPdr ∨ ticker ∈ STOOQ_BLOCKLIST then (Frame.empty, [])
  else
    let t0 := (STOOQ_MAP ticker).getD ticker
    let t := if ¬ strStartsWith t0 "^" then strLower t0 else t0
    match p.pdrStooq t start stop with
    | none => (Frame.empty, [Call.pdr t start stop])
    | some df => ({ df with rows := sortByDate df.rows }, [Call.pdr t start stop])

/-- The Stooq daily-CSV symbol: lowercase; equities/ETFs get a `.us` suffix,
indices keep their `^` prefix. -/
def stooqCsvSymbol (ticker : String) : String :=
  let t := (STOOQ_MAP ticker).getD ticker
  if ¬ strStartsWith t "^" then
    let sym := strLower t
    if ¬ strEndsWith sym ".us" then sym ++ ".us" else sym
  else strLower t

/-- Source `_stooq_csv_download`: fetch OHLCV from the Stooq CSV endpoint.  Empty
frame (no request) for blocklisted tickers; empty frame when the request or
the CSV parse fails, when the parsed frame has no rows, or when a required
column is missing (the source's `df[[...]]` selection raises a KeyError that
the surrounding `try` catches).  Otherwise: sort by date, filter to
`[start, stop)` (Stooq end is exclusive; both bounds are already normalized
dates), backfill `Adj Close` from `Close` if absent, select the six columns. -/
def _stooq_csv_download (p : Providers) (ticker : String) (start stop : Int) :
    Frame × List Call :=
  if ticker ∈ STOOQ_BLOCKLIST then (Frame.empty, [])
  else
    let sym := stooqCsvSymbol ticker
    match p.stooqCsv sym with
    | none => (Frame.empty, [Call.csv sym])
    | some df =>
      if df.rows.isEmpty then (Frame.empty, [Call.csv sym])
      else if df.hasOpen && df.hasHigh && df.hasLow && df.hasClose && df.hasVolume then
        ({ hasOpen := true, hasHigh := true, hasLow := true, hasClose := true,
           hasAdjClose := true, hasVolume := true,
           rows := ((sortByDate df.rows).filter
                      (fun r => decide (start ≤ r.date) && decide (r.date < stop))).map
                    (fun r => { r with
                      AdjClose := if df.hasAdjClose then r.AdjClose else r.Close }) },
         [Call.csv sym])
      else (Frame.empty, [Call.csv sym])

/- ------------------------------------------------------------------
Window computation and the fallback chain (source lines 294–369).
------------------------------------------------------------------ -/

/-- Source `_weekend_safe_range`: compute a concrete `[start, stop)` window.
With explicit bounds, use them (the source normalizes, an identity here).
Otherwise derive a day count from the period string — `int(period[:-1])`
raises a ValueError for a non-numeric prefix, modelled as `Except.error` —
and anchor the window to the last trading day. -/
def _weekend_safe_range (now : Int) (period : Option String)
    (start stop : Option Int) : Except String (Int × Int) :=
  if start.isSome || stop.isSome then
    let stopTs := match stop with
      | some e => e
      | none => last_trading_date now + 1
    let startTs := match start with
      | some s => s
      | none => stopTs - 5
    .ok (startTs, stopTs)
  else
    let days? : Except String Int :=
      match period with
      | some per =>
        if strEndsWith per "d" then
          match parseInt? (strDropRight per 1) with
          | some n => .ok n
          | none => .error "ValueError"
        else .ok 1
      | none => .ok 1
    match days? with
    | .error msg => .error msg
    | .ok days =>
      let endTrading := last_trading_date now
      .ok (endTrading - days, endTrading + 1)

/-- The proxy map `{"^RUT": "IWM"}` of `download_price_data` stage 4. -/
def proxy_map (t : String) : Option String :=
  if t = "^RUT" then some "IWM" else none

/-- Stages 1–4 of `download_price_data` for an explicit `[s, e)` window:
Yahoo by date range, Stooq via pandas-datareader, Stooq direct CSV, then the
Yahoo proxy retry; `FetchResult(empty, "empty")` if nothing worked. -/
def fetchChain (p : Providers) (ticker : String) (s e : Int) :
    FetchResult × List Call :=
  let y := _yahoo_download p ticker ⟨none, some s, some e⟩
  if ¬ y.1.rows.isEmpty then
    (⟨_normalize_ohlcv (_to_datetime_index y.1), "yahoo"⟩, y.2)
  else
    let sq := _stooq_download p ticker s e
    if ¬ sq.1.rows.isEmpty then
      (⟨_normalize_ohlcv (_to_datetime_index sq.1), "stooq-pdr"⟩, y.2 ++ sq.2)
    else
      let cv := _stooq_csv_download p ticker s e
      if ¬ cv.1.rows.isEmpty then
        (⟨_normalize_ohlcv (_to_datetime_index cv.1), "stooq-csv"⟩, y.2 ++ sq.2 ++ cv.2)
      else
        match proxy_map ticker with
        | some proxy =>
          let pr := _yahoo_download p proxy ⟨none, some s, some e⟩
          if ¬ pr.1.rows.isEmpty then
            (⟨_normalize_ohlcv (_to_datetime_index pr.1),
              "yahoo:" ++ proxy ++ "-proxy"⟩, y.2 ++ sq.2 ++ cv.2 ++ pr.2)
          else (⟨Frame.emptySix, "empty"⟩, y.2 ++ sq.2 ++ cv.2 ++ pr.2)
        | none => (⟨Frame.emptySix, "empty"⟩, y.2 ++ sq.2 ++ cv.2)

/-- Source `download_price_data`: robust OHLCV fetch.  When a `period` is supplied,
query Yahoo with the raw keyword arguments first and return on non-empty
data; otherwise (or on empty) compute a concrete window via
`_weekend_safe_range` and run the four-stage chain.  `Except.error` models
the ValueError that `int(period[:-1])` can raise, which the source does not
catch. -/
def download_price_data (p : Providers) (now : Int) (ticker : String)
    (period : Option String) (start stop : Option Int) :
    Except String FetchResult × List Call :=
  let fast : Option Frame × List Call :=
    match period with
    | some _ =>
      let y := _yahoo_download p ticker ⟨period, start, stop⟩
      (if y.1.rows.isEmpty then none else some y.1, y.2)
    | none => (none, [])
  match fast.1 with
  | some dfY =>
    (.ok ⟨_normalize_ohlcv (_to_datetime_index dfY), "yahoo"⟩, fast.2)
  | none =>
    match _weekend_safe_range now period start stop with
    | .error msg => (.error msg, fast.2)
    | .ok (s, e) =>
      let r := fetchChain p ticker s e
      (.ok r.1, fast.2 ++ r.2)

/-- The `download_price_data(ticker, period="1d", ...)` calls of the
portfolio operations.  The `.error` branch is unreachable: the literal
period `"1d"` always parses. -/
def fetch_daily (p : Providers) (now : Int) (ticker : String) : FetchResult :=
  match (download_price_data p now ticker (some "1d") none none).1 with
  | .ok r => r
  | .error _ => ⟨Frame.emptySix, "empty"⟩

/- ------------------------------------------------------------------
Numeric helpers for the portfolio operations.
------------------------------------------------------------------ -/

/-- Python `int(x)` on a float: truncation toward zero. -/
def truncQ (q : ℚ) : Int := Int.tdiv q.num (q.den : Int)

/-- Floor of a rational, computed directly on numerator and denominator. -/
def ratFloor (q : ℚ) : Int := Int.ediv q.num (q.den : Int)

/-- Python `round(x)` to an integer: round half to even. -/
def bankRound (q : ℚ) : Int :=
  let f := ratFloor q
  let r := q - (f : ℚ)
  if r < 1/2 then f
  else if 1/2 < r then f + 1
  else if f % 2 = 0 then f else f + 1

/-- Python `round(x, 2)`: round to two decimal places (half to even). -/
def round2 (q : ℚ) : ℚ := (bankRound (q * 100) : ℚ) / 100

/-- A float-NaN-aware `x >= y`: NaN compares false. -/
def optGE (x : Option ℚ) (y : ℚ) : Bool :=
  match x with
  | some a => decide (y ≤ a)
  | none => false

/-- A float-NaN-aware `x <= y`: NaN compares false. -/
def optLE (x : Option ℚ) (y : ℚ) : Bool :=
  match x with
  | some a => decide (a ≤ y)
  | none => false

/-- The last bar `(o, h, l, c)` read by the sell paths (source lines 558–563
and 793–797): `o` from the Open column if present else NaN, then replaced by
Close when NaN; `h`, `l`, `c` from their columns. -/
def _lastBar (data : Frame) : Option ℚ × Option ℚ × Option ℚ × Option ℚ :=
  let last := data.rows.getLast?.getD dRow
  let o0 : Option ℚ := if data.hasOpen then last.Open else none
  let c : Option ℚ := last.Close
  let o : Option ℚ := if o0 = none then c else o0
  (o, last.High, last.Low, c)

/- ------------------------------------------------------------------
Portfolio state (source lines 389–394, 471–494, 720–750).
------------------------------------------------------------------ -/

/-- One row of the `chatgpt_portfolio` DataFrame. -/
structure Position where
  ticker : String
  shares : ℚ
  stop_loss : ℚ
  buy_price : ℚ
  cost_basis : ℚ
  deriving Repr, DecidableEq

/-- Placeholder position, the (unreachable) default of `find?` after a
membership guard. -/
def dPos : Position := ⟨"", 0, 0, 0, 0⟩

/-- Source `log_sell` (lines 619–649): append the automated-sell record to
the trade log (a file side effect outside this model) and drop every
portfolio row whose ticker equals the sold one. -/
def log_sell (ticker : String) (_shares _price _cost _pnl : ℚ)
    (portfolio : List Position) : List Position :=
  portfolio.filter (fun r => r.ticker ≠ ticker)

/-- Model of `chatgpt_portfolio.at[ticker_row.index[0], ...]`: rewrite the first row
matching the ticker. -/
def updateFirst (t : String) (f : Position → Position) :
    List Position → List Position
  | [] => []
  | r :: rs => if r.ticker = t then f r :: rs else r :: updateFirst t f rs

/-- Source `log_manual_sell` (lines 756–840), with `interactive=False` so
`reason` is the supplied argument.  CSV logging is a file side effect
outside the model; the returned pair is `(cash, chatgpt_portfolio)`.
The source's `ticker_row["shares"].item()` presumes a unique matching row
(the invariant kept by the buy paths), modelled with `find?`. -/
def log_manual_sell (p : Providers) (now : Int)
    (sell_price shares_sold : ℚ) (ticker : String) (cash : ℚ)
    (chatgpt_portfolio : List Position) (reason : Option String) :
    ℚ × List Position :=
  if reason = some "1" then (cash, chatgpt_portfolio)
  else if ticker ∉ chatgpt_portfolio.map Position.ticker then
    (cash, chatgpt_portfolio)
  else
    let tickerRow := (chatgpt_portfolio.find? (fun r => r.ticker = ticker)).getD dPos
    let total_shares : Int := truncQ tickerRow.shares
    if shares_sold > (total_shares : ℚ) then (cash, chatgpt_portfolio)
    else
      let data := (fetch_daily p now ticker).df
      if data.rows.isEmpty then (cash, chatgpt_portfolio)
      else
        let bar := _lastBar data
        let o := bar.1
        let h := bar.2.1
        let exec? : Option ℚ :=
          if optGE o sell_price then some (o.getD 0)
          else if optGE h sell_price then some sell_price
          else none
        match exec? with
        | none => (cash, chatgpt_portfolio)
        | some exec_price =>
          let pf :=
            if (total_shares : ℚ) = shares_sold then
              chatgpt_portfolio.filter (fun r => r.ticker ≠ ticker)
            else
              updateFirst ticker (fun r =>
                { r with shares := (total_shares : ℚ) - shares_sold,
                         cost_basis :=
                           ((total_shares : ℚ) - shares_sold) * r.buy_price })
                chatgpt_portfolio
          (cash + shares_sold * exec_price, pf)

/-- The body of the daily pricing loop of `process_portfolio` (source lines
537–592) for one portfolio row: fetch the day's bar; on no data keep the
state (a NO DATA report row is appended, not modelled); on a triggered stop
(`stop` non-zero and the day's low at or below it) sell the whole position
at `round(min(o, stop), 2)`, credit `round(price*shares, 2)` to cash and
drop the row via `log_sell`; otherwise hold (report-only arithmetic not
modelled).  The `pd.isna` fallbacks on the row's fields are vacuous in this
NaN-free rational model. -/
def process_position (p : Providers) (now : Int)
    (state : List Position × ℚ) (stock : Position) : List Position × ℚ :=
  let portfolio := state.1
  let cash := state.2
  let ticker := strUpper stock.ticker
  let shares : Int := truncQ stock.shares
  let cost := stock.buy_price
  let stop := stock.stop_loss
  let data := (fetch_daily p now ticker).df
  if data.rows.isEmpty then (portfolio, cash)
  else
    let bar := _lastBar data
    let o := bar.1
    let l := bar.2.2.1
    if stop ≠ 0 ∧ optLE l stop then
      let base : ℚ :=
        match o with
        | some ov => if ov ≤ stop then ov else stop
        | none => stop
      let exec_price := round2 base
      let value := round2 (exec_price * (shares : ℚ))
      let pnl := round2 ((exec_price - cost) * (shares : ℚ))
      let portfolio := log_sell ticker (shares : ℚ) exec_price cost pnl portfolio
      (portfolio, cash + value)
    else (portfolio, cash)

/-- The daily pricing phase of `process_portfolio` (`interactive=False`):
iterate over a snapshot of the incoming portfolio while threading the
updated portfolio and cash.  Report-row accumulation and the CSV write are
file side effects outside the model. -/
def process_portfolio (p : Providers) (now : Int)
    (portfolio : List Position) (cash : ℚ) : List Position × ℚ :=
  portfolio.foldl (process_position p now) (portfolio, cash)

/- ------------------------------------------------------------------
Generic decidability helper.
------------------------------------------------------------------ -/

instance {ε α : Type} [DecidableEq ε] [DecidableEq α] : DecidableEq (Except ε α) :=
  fun a b =>
    match a, b with
    | .ok x, .ok y =>
      if h : x = y then isTrue (by rw [h])
      else isFalse (by intro hh; cases hh; exact h rfl)
    | .error x, .error y =>
      if h : x = y then isTrue (by rw [h])
      else isFalse (by intro hh; cases hh; exact h rfl)
    | .ok _, .error _ => isFalse (by intro hh; cases hh)
    | .error _, .ok _ => isFalse (by intro hh; cases hh)

/- ------------------------------------------------------------------
Claim theorems.
------------------------------------------------------------------ -/

/-- C7: `last_trading_date` maps a Saturday (weekday 5) to the preceding
Friday, a Sunday (weekday 6) to the Friday two days prior, and any weekday
(weekday ≤ 4) to that same day. -/
theorem c7_last_trading_date_weekend_map (d : Int) :
    (weekday d = 5 → last_trading_date d = d - 1 ∧ weekday (d - 1) = 4) ∧
    (weekday d = 6 → last_trading_date d = d - 2 ∧ weekday (d - 2) = 4) ∧
    (weekday d ≤ 4 → last_trading_date d = d) := by
  unfold last_trading_date
  refine ⟨fun h => ?_, fun h => ?_, fun h => ?_⟩
  · rw [if_pos h]
    exact ⟨rfl, by unfold weekday at h ⊢; omega⟩
  · have h5 : weekday d ≠ 5 := by omega
    rw [if_neg h5, if_pos h]
    exact ⟨rfl, by unfold weekday at h ⊢; omega⟩
  · have h5 : weekday d ≠ 5 := by omega
    have h6 : weekday d ≠ 6 := by omega
    rw [if_neg h5, if_neg h6]

/-- Witness for C7 at concrete dates: day 2 is Saturday 1970-01-03 and maps
to day 1 (Friday); day 3 is Sunday and maps to day 1; day 0 is Thursday and
is fixed. -/
theorem c7_last_trading_date_weekend_map_witness :
    (last_trading_date 2 = 1 ∧ weekday 1 = 4) ∧
    (last_trading_date 3 = 1 ∧ weekday 1 = 4) ∧
    last_trading_date 0 = 0 := by
  refine ⟨?_, ?_, ?_⟩
  · exact (c7_last_trading_date_weekend_map 2).1 (by decide)
  · have h := (c7_last_trading_date_weekend_map 3).2.1 (by decide)
    exact ⟨h.1, h.2⟩
  · exact (c7_last_trading_date_weekend_map 0).2.2 (by decide)

/-- C8: `_normalize_ohlcv` is idempotent — normalizing an already-normalized
frame returns it unchanged, row for row and column for column. -/
theorem c8_normalize_ohlcv_idem (df : Frame) :
    _normalize_ohlcv (_normalize_ohlcv df) = _normalize_ohlcv df := by
  simp only [_normalize_ohlcv, List.map_map]
  rfl

/- ------------------------------------------------------------------
Helper lemmas about the embedding.
------------------------------------------------------------------ -/

theorem isEmpty_false_of_ne_nil {α : Type} {l : List α} (h : l ≠ []) :
    l.isEmpty = false := by
  cases l with
  | nil => exact absurd rfl h
  | cons a t => rfl

theorem insertByDate_perm (r : Row) (l : List Row) :
    (insertByDate r l).Perm (r :: l) := by
  induction l with
  | nil => exact List.Perm.refl _
  | cons x xs ih =>
    unfold insertByDate
    by_cases h : r.date ≤ x.date
    · rw [if_pos h]
    · rw [if_neg h]
      exact ((ih.cons x).trans (List.Perm.swap r x xs))

theorem sortByDate_perm (l : List Row) : (sortByDate l).Perm l := by
  induction l with
  | nil => exact List.Perm.refl _
  | cons x xs ih =>
    exact (insertByDate_perm x (sortByDate xs)).trans (ih.cons x)

theorem sortByDate_eq_of_sorted {l : List Row}
    (h : l.Pairwise (fun a b => a.date < b.date)) : sortByDate l = l := by
  induction l with
  | nil => rfl
  | cons x xs ih =>
    have hxs := List.Pairwise.of_cons h
    unfold sortByDate
    rw [ih hxs]
    cases xs with
    | nil => rfl
    | cons y ys =>
      have hxy : x.date < y.date := (List.pairwise_cons.mp h).1 y (by simp)
      unfold insertByDate
      rw [if_pos (le_of_lt hxy)]

/-- C2: for a ticker off the Stooq blocklist and an explicit date window, a
non-empty primary (Yahoo) frame makes `download_price_data` return source
`"yahoo"` with the normalized primary data, and the request trace shows the
single Yahoo call — neither Stooq stage nor the proxy stage is invoked. -/
theorem c2_primary_short_circuit (p : Providers) (now : Int) (ticker : String)
    (a b : Int) (hbl : ticker ∉ STOOQ_BLOCKLIST) (df : Frame)
    (hy : p.yahoo ticker ⟨none, some a, some b⟩ = some df)
    (hne : df.rows ≠ []) :
    download_price_data p now ticker none (some a) (some b) =
      (.ok ⟨_normalize_ohlcv (_to_datetime_index df), "yahoo"⟩,
       [Call.yahoo ticker ⟨none, some a, some b⟩]) := by
  unfold download_price_data _weekend_safe_range fetchChain _yahoo_download
  simp [hy, frameOf, isEmpty_false_of_ne_nil hne]

/-- A one-row frame used by concrete witness scenarios. -/
def wFrame : Frame :=
  ⟨true, true, true, true, true, true,
   [⟨1, some 2, some 3, some 1, some 2, some 2, some 9⟩]⟩

/-- Witness environment: Yahoo answers only `AAPL` on the window `[0, 5)`. -/
def envC2 : Providers :=
  ⟨true,
   fun t q => if t = "AAPL" ∧ q = ⟨none, some 0, some 5⟩ then some wFrame else none,
   fun _ _ _ => none, fun _ => none⟩

/-- Witness for C2 at `AAPL`, window `[0, 5)`, against `envC2`. -/
theorem c2_primary_short_circuit_witness :
    download_price_data envC2 7 "AAPL" none (some 0) (some 5) =
      (.ok ⟨_normalize_ohlcv (_to_datetime_index wFrame), "yahoo"⟩,
       [Call.yahoo "AAPL" ⟨none, some 0, some 5⟩]) :=
  c2_primary_short_circuit envC2 7 "AAPL" 0 5 (by decide) wFrame (by decide)
    (by decide)

/-- C4: for a blocklisted ticker both Stooq stages return an empty frame and
issue no request whatever the other stages did; and when the primary stage
is empty and the ticker has a registered proxy, the chain retries Yahoo with
the proxy symbol and tags a successful result `"yahoo:<proxy>-proxy"`. -/
theorem c4_blocklist_and_proxy (p : Providers) (s e : Int) (ticker : String)
    (hbl : ticker ∈ STOOQ_BLOCKLIST)
    (hy : ∀ df, p.yahoo ticker ⟨none, some s, some e⟩ = some df → df.rows = [])
    (dfp : Frame)
    (hp : p.yahoo "IWM" ⟨none, some s, some e⟩ = some dfp)
    (hne : dfp.rows ≠ []) :
    _stooq_download p ticker s e = (Frame.empty, []) ∧
    _stooq_csv_download p ticker s e = (Frame.empty, []) ∧
    fetchChain p ticker s e =
      (⟨_normalize_ohlcv (_to_datetime_index dfp), "yahoo:IWM-proxy"⟩,
       [Call.yahoo ticker ⟨none, some s, some e⟩,
        Call.yahoo "IWM" ⟨none, some s, some e⟩]) := by
  simp only [STOOQ_BLOCKLIST, List.mem_singleton] at hbl
  subst hbl
  have hstq : _stooq_download p "^RUT" s e = (Frame.empty, []) := by
    unfold _stooq_download
    rw [if_pos (Or.inr (by decide))]
  have hcsv : _stooq_csv_download p "^RUT" s e = (Frame.empty, []) := by
    unfold _stooq_csv_download
    rw [if_pos (by decide)]
  refine ⟨hstq, hcsv, ?_⟩
  have hye : (frameOf (p.yahoo "^RUT" ⟨none, some s, some e⟩)).rows = [] := by
    cases hcase : p.yahoo "^RUT" ⟨none, some s, some e⟩ with
    | none => rfl
    | some df => exact hy df hcase
  unfold fetchChain _yahoo_download
  rw [hstq, hcsv]
  simp only [frameOf, Frame.empty] at hye
  simp [hye, hp, frameOf, isEmpty_false_of_ne_nil hne, proxy_map, Frame.empty]

/-- Witness environment for C4: Yahoo knows only the proxy symbol `IWM` on
the window `[0, 3)`. -/
def envC4 : Providers :=
  ⟨true,
   fun t q => if t = "IWM" ∧ q = ⟨none, some 0, some 3⟩ then some wFrame else none,
   fun _ _ _ => none, fun _ => none⟩

/-- Witness for C4 at the blocklisted ticker `^RUT`, window `[0, 3)`. -/
theorem c4_blocklist_and_proxy_witness :
    _stooq_download envC4 "^RUT" 0 3 = (Frame.empty, []) ∧
    _stooq_csv_download envC4 "^RUT" 0 3 = (Frame.empty, []) ∧
    fetchChain envC4 "^RUT" 0 3 =
      (⟨_normalize_ohlcv (_to_datetime_index wFrame), "yahoo:IWM-proxy"⟩,
       [Call.yahoo "^RUT" ⟨none, some 0, some 3⟩,
        Call.yahoo "IWM" ⟨none, some 0, some 3⟩]) :=
  c4_blocklist_and_proxy envC4 0 3 "^RUT" (by decide)
    (fun df h => by simp [envC4] at h) wFrame (by decide) (by decide)

/-- C6: with a relative lookback period (a well-formed period string) and no
explicit window, the primary provider is queried with the period keyword
first; only when that query is empty does `download_price_data` fall through
to the four-stage window chain, recomputing an explicit `[start, stop)`
window anchored to the last trading day. -/
theorem c6_period_first_then_window (p : Providers) (now : Int)
    (ticker per : String)
    (hper : strEndsWith per "d" = true →
      (parseInt? (strDropRight per 1)).isSome = true) :
    ((frameOf (p.yahoo ticker ⟨some per, none, none⟩)).rows ≠ [] →
      download_price_data p now ticker (some per) none none =
        (.ok ⟨_normalize_ohlcv (_to_datetime_index
                (frameOf (p.yahoo ticker ⟨some per, none, none⟩))), "yahoo"⟩,
         [Call.yahoo ticker ⟨some per, none, none⟩])) ∧
    ((frameOf (p.yahoo ticker ⟨some per, none, none⟩)).rows = [] →
      _weekend_safe_range now (some per) none none =
        .ok (last_trading_date now -
               (if strEndsWith per "d" then
                  (parseInt? (strDropRight per 1)).getD 1 else 1),
             last_trading_date now + 1) ∧
      download_price_data p now ticker (some per) none none =
        (.ok (fetchChain p ticker
                (last_trading_date now -
                   (if strEndsWith per "d" then
                      (parseInt? (strDropRight per 1)).getD 1 else 1))
                (last_trading_date now + 1)).1,
         Call.yahoo ticker ⟨some per, none, none⟩ ::
           (fetchChain p ticker
              (last_trading_date now -
                 (if strEndsWith per "d" then
                    (parseInt? (strDropRight per 1)).getD 1 else 1))
              (last_trading_date now + 1)).2)) := by
  constructor
  · intro hne
    unfold download_price_data _yahoo_download
    simp [isEmpty_false_of_ne_nil hne]
  · intro hemp
    have hws : _weekend_safe_range now (some per) none none =
        .ok (last_trading_date now -
               (if strEndsWith per "d" then
                  (parseInt? (strDropRight per 1)).getD 1 else 1),
             last_trading_date now + 1) := by
      unfold _weekend_safe_range
      by_cases hd : strEndsWith per "d" = true
      · obtain ⟨n, hn⟩ := Option.isSome_iff_exists.mp (hper hd)
        simp [hd, hn]
      · simp [hd]
    refine ⟨hws, ?_⟩
    unfold download_price_data _yahoo_download
    simp [hemp, hws]

/-- Witness environment for C6: Yahoo answers `MSFT` on any period query. -/
def envC6 : Providers :=
  ⟨true,
   fun t q => if t = "MSFT" ∧ q.period = some "5d" then some wFrame else none,
   fun _ _ _ => none, fun _ => none⟩

/-- Witness for C6 at `MSFT` with period `"5d"`. -/
theorem c6_period_first_then_window_witness :
    download_price_data envC6 0 "MSFT" (some "5d") none none =
      (.ok ⟨_normalize_ohlcv (_to_datetime_index wFrame), "yahoo"⟩,
       [Call.yahoo "MSFT" ⟨some "5d", none, none⟩]) := by
  have H := (c6_period_first_then_window envC6 0 "MSFT" "5d"
    (fun _ => by decide)).1 (by decide)
  exact H

theorem yahoo_download_rows_empty (p : Providers) (t : String) (q : YahooQuery)
    (h : ∀ df, p.yahoo t q = some df → df.rows = []) :
    (_yahoo_download p t q).1.rows = [] := by
  unfold _yahoo_download
  rcases hc : p.yahoo t q with _ | df
  · simp [frameOf, hc, Frame.empty]
  · simp [frameOf, hc, h df hc]

theorem stooq_download_rows_empty (p : Providers) (t : String) (s e : Int)
    (h : ∀ t' a b df, p.pdrStooq t' a b = some df → df.rows = []) :
    (_stooq_download p t s e).1.rows = [] := by
  unfold _stooq_download
  split
  · rfl
  · dsimp only
    split
    · rfl
    · next df heq =>
      simp [h _ _ _ df heq, sortByDate]

theorem stooq_csv_download_rows_empty (p : Providers) (t : String) (s e : Int)
    (h : ∀ sym df, p.stooqCsv sym = some df → df.rows = []) :
    (_stooq_csv_download p t s e).1.rows = [] := by
  unfold _stooq_csv_download
  split
  · rfl
  · dsimp only
    split
    · rfl
    · next df heq =>
      simp [h _ df heq, Frame.empty]

theorem fetchChain_all_empty (p : Providers) (ticker : String) (s e : Int)
    (hy : ∀ t q df, p.yahoo t q = some df → df.rows = [])
    (hpdr : ∀ t a b df, p.pdrStooq t a b = some df → df.rows = [])
    (hcsv : ∀ sym df, p.stooqCsv sym = some df → df.rows = []) :
    (fetchChain p ticker s e).1 = ⟨Frame.emptySix, "empty"⟩ := by
  have hy1 := yahoo_download_rows_empty p ticker ⟨none, some s, some e⟩
    (fun df h => hy _ _ df h)
  have hs1 := stooq_download_rows_empty p ticker s e hpdr
  have hc1 := stooq_csv_download_rows_empty p ticker s e hcsv
  unfold fetchChain
  dsimp only
  simp only [hy1, hs1, hc1, List.isEmpty_nil, Bool.not_true, not_true_eq_false,
    if_false, ite_false]
  split
  · next proxy _ =>
    have hp1 := yahoo_download_rows_empty p proxy ⟨none, some s, some e⟩
      (fun df h => hy _ _ df h)
    simp [hp1]
  · rfl

theorem weekend_safe_range_isOk (now : Int) (period : Option String)
    (start stop : Option Int)
    (hper : ∀ per, period = some per → strEndsWith per "d" = true →
      (parseInt? (strDropRight per 1)).isSome = true) :
    ∃ se, _weekend_safe_range now period start stop = .ok se := by
  unfold _weekend_safe_range
  by_cases hs : (start.isSome || stop.isSome) = true
  · rw [if_pos hs]
    exact ⟨_, rfl⟩
  · rw [if_neg hs]
    cases period with
    | none => exact ⟨_, rfl⟩
    | some per =>
      dsimp only
      by_cases hd : strEndsWith per "d" = true
      · obtain ⟨n, hn⟩ := Option.isSome_iff_exists.mp (hper per rfl hd)
        simp only [hd, if_true, hn]
        exact ⟨_, rfl⟩
      · simp only [Bool.not_eq_true] at hd
        simp only [hd, Bool.false_eq_true, if_false]
        exact ⟨_, rfl⟩

/-- C1 (amended): with a parsable (or absent) lookback period,
`download_price_data` never raises — it always returns `Except.ok` whatever
the providers do — and when every provider yields an empty frame or an
error, the result is the empty six-column frame with source `"empty"`. -/
theorem c1_resilient_fetch (p : Providers) (now : Int) (ticker : String)
    (period : Option String) (start stop : Option Int)
    (hper : ∀ per, period = some per → strEndsWith per "d" = true →
      (parseInt? (strDropRight per 1)).isSome = true)
    (hy : ∀ t q df, p.yahoo t q = some df → df.rows = [])
    (hpdr : ∀ t a b df, p.pdrStooq t a b = some df → df.rows = [])
    (hcsv : ∀ sym df, p.stooqCsv sym = some df → df.rows = []) :
    (download_price_data p now ticker period start stop).1 =
      .ok ⟨Frame.emptySix, "empty"⟩ ∧
    ∀ q : Providers, ∃ r,
      (download_price_data q now ticker period start stop).1 = .ok r := by
  obtain ⟨⟨s0, e0⟩, hse⟩ := weekend_safe_range_isOk now period start stop hper
  constructor
  · unfold download_price_data
    cases period with
    | none =>
      dsimp only
      rw [hse]
      dsimp only
      rw [fetchChain_all_empty p ticker s0 e0 hy hpdr hcsv]
    | some per =>
      have hfast := yahoo_download_rows_empty p ticker ⟨some per, start, stop⟩
        (fun df h => hy _ _ df h)
      dsimp only
      simp only [hfast, List.isEmpty_nil, if_true]
      rw [hse]
      dsimp only
      rw [fetchChain_all_empty p ticker s0 e0 hy hpdr hcsv]
  · intro q
    unfold download_price_data
    cases period with
    | none =>
      dsimp only
      rw [hse]
      exact ⟨_, rfl⟩
    | some per =>
      dsimp only
      by_cases hq : (_yahoo_download q ticker ⟨some per, start, stop⟩).1.rows.isEmpty = true
      · simp only [hq, if_true]
        rw [hse]
        exact ⟨_, rfl⟩
      · simp only [hq, Bool.false_eq_true, if_false]
        exact ⟨_, rfl⟩

/-- Providers that always fail: no pandas-datareader, and every oracle
raises. -/
def envEmpty : Providers :=
  ⟨false, fun _ _ => none, fun _ _ _ => none, fun _ => none⟩

/-- Witness for C1 at `AAPL`, lookback `"1d"`, with all providers failing. -/
theorem c1_resilient_fetch_witness :
    (download_price_data envEmpty 0 "AAPL" (some "1d") none none).1 =
      .ok ⟨Frame.emptySix, "empty"⟩ :=
  (c1_resilient_fetch envEmpty 0 "AAPL" (some "1d") none none
    (fun per hpe _ => by cases hpe; decide)
    (fun t q df h => by simp [envEmpty] at h)
    (fun t a b df h => by simp [envEmpty] at h)
    (fun sym df h => by simp [envEmpty] at h)).1

/-- C1 counterexample: `download_price_data` CAN raise.  With the lookback
period `"d"` (or any period string ending in `d` whose prefix is not an
integer) and an empty primary answer, `int(period[:-1])` raises a
ValueError that no stage catches, so the call does not return a
FetchResult. -/
theorem c1_counterexample_period_d :
    (download_price_data envEmpty 0 "AAPL" (some "d") none none).1 =
      .error "ValueError" := by decide

/-- C5: the tertiary Stooq CSV stage returns exactly the downloaded rows
whose date lies in the half-open window `[start, stop)` — the end bound is
exclusive.  The first conjunct gives the rows (sorted, filtered, `Adj Close`
backfilled); the second characterises the returned dates. -/
theorem c5_csv_window_exclusive_end (p : Providers) (ticker : String)
    (s e : Int) (raw : Frame)
    (hbl : ticker ∉ STOOQ_BLOCKLIST)
    (hcsv : p.stooqCsv (stooqCsvSymbol ticker) = some raw)
    (hne : raw.rows ≠ [])
    (hcols : (raw.hasOpen && raw.hasHigh && raw.hasLow && raw.hasClose &&
      raw.hasVolume) = true) :
    (_stooq_csv_download p ticker s e).1.rows =
      ((sortByDate raw.rows).filter
         (fun r => decide (s ≤ r.date) && decide (r.date < e))).map
        (fun r => { r with
           AdjClose := if raw.hasAdjClose then r.AdjClose else r.Close }) ∧
    ∀ d : Int,
      d ∈ (_stooq_csv_download p ticker s e).1.rows.map Row.date ↔
        (d ∈ raw.rows.map Row.date ∧ s ≤ d ∧ d < e) := by
  have hred : (_stooq_csv_download p ticker s e).1.rows =
      ((sortByDate raw.rows).filter
         (fun r => decide (s ≤ r.date) && decide (r.date < e))).map
        (fun r => { r with
           AdjClose := if raw.hasAdjClose then r.AdjClose else r.Close }) := by
    unfold _stooq_csv_download
    rw [if_neg hbl]
    dsimp only
    rw [hcsv]
    simp only [isEmpty_false_of_ne_nil hne, Bool.false_eq_true, if_false, hcols,
      if_true]
  have hperm := sortByDate_perm raw.rows
  refine ⟨hred, fun d => ?_⟩
  rw [hred]
  simp only [List.map_map, List.mem_map, Function.comp, List.mem_filter,
    Bool.and_eq_true, decide_eq_true_eq, hperm.mem_iff]
  constructor
  · rintro ⟨r, ⟨hr, hs, he⟩, hd⟩
    exact ⟨⟨r, hr, hd⟩, hd ▸ hs, hd ▸ he⟩
  · rintro ⟨⟨r, hr, hd⟩, hs, he⟩
    exact ⟨r, ⟨hr, hd.symm ▸ hs, hd.symm ▸ he⟩, hd⟩

/-- Witness CSV payload: unsorted dates 3, 0, 2, 5; no `Adj Close` column. -/
def rawC5 : Frame :=
  ⟨true, true, true, true, false, true,
   [⟨3, some 1, some 2, some 1, some 1, none, some 5⟩,
    ⟨0, some 1, some 2, some 1, some 1, none, some 5⟩,
    ⟨2, some 1, some 2, some 1, some 1, none, some 5⟩,
    ⟨5, some 1, some 2, some 1, some 1, none, some 5⟩]⟩

/-- Witness environment for C5: only the Stooq CSV endpoint answers, for the
symbol `xyz.us`. -/
def envC5 : Providers :=
  ⟨true, fun _ _ => none, fun _ _ _ => none,
   fun sym => if sym = "xyz.us" then some rawC5 else none⟩

/-- Witness for C5 at ticker `XYZ`, window `[1, 4)`: date 2 is kept, the
out-of-window date 5 is not. -/
theorem c5_csv_window_exclusive_end_witness :
    2 ∈ (_stooq_csv_download envC5 "XYZ" 1 4).1.rows.map Row.date ∧
    5 ∉ (_stooq_csv_download envC5 "XYZ" 1 4).1.rows.map Row.date := by
  have H := c5_csv_window_exclusive_end envC5 "XYZ" 1 4 rawC5
    (by decide) (by decide) (by decide) (by decide)
  refine ⟨(H.2 2).mpr (by decide), fun hmem => ?_⟩
  exact absurd ((H.2 5).mp hmem).2.2 (by decide)

/-- Rows sorted strictly ascending by date: sorted and no duplicate dates. -/
def rowsStrictSorted (l : List Row) : Prop :=
  l.Pairwise (fun a b => a.date < b.date)

/-- Every frame any provider ever returns is sorted with no duplicate
dates. -/
def SortedProviders (p : Providers) : Prop :=
  (∀ t q df, p.yahoo t q = some df → rowsStrictSorted df.rows) ∧
  (∀ t a b df, p.pdrStooq t a b = some df → rowsStrictSorted df.rows) ∧
  (∀ sym df, p.stooqCsv sym = some df → rowsStrictSorted df.rows)

theorem normalize_ohlcv_allCols (df : Frame) :
    (_normalize_ohlcv df).allCols = true := rfl

theorem normalize_ohlcv_sorted (df : Frame) (h : rowsStrictSorted df.rows) :
    rowsStrictSorted (_normalize_ohlcv df).rows := by
  unfold _normalize_ohlcv rowsStrictSorted
  exact List.pairwise_map.mpr (h.imp (fun hab => hab))

theorem normalize_ohlcv_adjclose_backfill (df : Frame)
    (h : df.hasAdjClose = false) :
    ∀ row ∈ (_normalize_ohlcv df).rows, row.AdjClose = row.Close := by
  intro row hrow
  unfold _normalize_ohlcv at hrow
  simp only [List.mem_map] at hrow
  obtain ⟨r, _, rfl⟩ := hrow
  simp [h]

theorem yahoo_download_sorted (p : Providers) (t : String) (q : YahooQuery)
    (h : ∀ df, p.yahoo t q = some df → rowsStrictSorted df.rows) :
    rowsStrictSorted (_yahoo_download p t q).1.rows := by
  unfold _yahoo_download
  rcases hc : p.yahoo t q with _ | df
  · simp [frameOf, Frame.empty, rowsStrictSorted]
  · simpa [frameOf] using h df hc

theorem stooq_download_sorted (p : Providers) (t : String) (s e : Int)
    (h : ∀ t' a b df, p.pdrStooq t' a b = some df → rowsStrictSorted df.rows) :
    rowsStrictSorted (_stooq_download p t s e).1.rows := by
  unfold _stooq_download
  split
  · simp [Frame.empty, rowsStrictSorted]
  · dsimp only
    split
    · simp [Frame.empty, rowsStrictSorted]
    · next df heq =>
      have hdf := h _ _ _ df heq
      simpa [sortByDate_eq_of_sorted hdf] using hdf

theorem stooq_csv_download_sorted (p : Providers) (t : String) (s e : Int)
    (h : ∀ sym df, p.stooqCsv sym = some df → rowsStrictSorted df.rows) :
    rowsStrictSorted (_stooq_csv_download p t s e).1.rows := by
  unfold _stooq_csv_download
  split
  · simp [Frame.empty, rowsStrictSorted]
  · dsimp only
    split
    · simp [Frame.empty, rowsStrictSorted]
    · next df heq =>
      have hdf := h _ df heq
      split
      · simp [Frame.empty, rowsStrictSorted]
      · split
        · dsimp only [rowsStrictSorted]
          refine List.pairwise_map.mpr ?_
          exact ((sortByDate_eq_of_sorted hdf ▸ hdf).filter _).imp (fun hab => hab)
        · simp [Frame.empty, rowsStrictSorted]

theorem proxy_source_ne_empty (proxy : String) :
    ("yahoo:" ++ proxy ++ "-proxy") ≠ "empty" := by
  intro h
  have hlen := congrArg String.length h
  simp only [String.length_append] at hlen
  have h1 : "yahoo:".length = 6 := rfl
  have h2 : "-proxy".length = 6 := rfl
  have h3 : "empty".length = 5 := rfl
  omega

theorem fetchChain_invariants (p : Providers) (ticker : String) (s e : Int)
    (hs : SortedProviders p) :
    ((fetchChain p ticker s e).1.source = "empty" →
      (fetchChain p ticker s e).1.df.rows = []) ∧
    (fetchChain p ticker s e).1.df.allCols = true ∧
    rowsStrictSorted (fetchChain p ticker s e).1.df.rows := by
  obtain ⟨hsy, hspdr, hscsv⟩ := hs
  unfold fetchChain
  dsimp only
  split
  · refine ⟨fun h => ?_, rfl,
      normalize_ohlcv_sorted _ (yahoo_download_sorted p ticker _ (fun df h => hsy _ _ df h))⟩
    simp at h
  · split
    · refine ⟨fun h => ?_, rfl,
        normalize_ohlcv_sorted _ (stooq_download_sorted p ticker s e hspdr)⟩
      simp at h
    · split
      · refine ⟨fun h => ?_, rfl,
          normalize_ohlcv_sorted _ (stooq_csv_download_sorted p ticker s e hscsv)⟩
        simp at h
      · split
        · split
          · next proxy _ _ =>
            refine ⟨fun h => ?_, rfl,
              normalize_ohlcv_sorted _ (yahoo_download_sorted p proxy _ (fun df h => hsy _ _ df h))⟩
            simp only at h
            exact absurd h (proxy_source_ne_empty proxy)
          · exact ⟨fun _ => rfl, rfl, by simp [Frame.emptySix, rowsStrictSorted]⟩
        · exact ⟨fun _ => rfl, rfl, by simp [Frame.emptySix, rowsStrictSorted]⟩

/-- C3 (amended): provided every provider frame is sorted with no duplicate
dates, any FetchResult of `download_price_data` has all six columns present,
rows sorted strictly ascending by date (hence duplicate-free), and empty
rows when the source is `"empty"`; and `_normalize_ohlcv` backfills
`Adj Close` from `Close` whenever the provider did not supply it. -/
theorem c3_fetchresult_invariants (p : Providers) (now : Int)
    (ticker : String) (period : Option String) (start stop : Option Int)
    (r : FetchResult) (hs : SortedProviders p)
    (hr : (download_price_data p now ticker period start stop).1 = .ok r) :
    (r.source = "empty" → r.df.rows = []) ∧
    r.df.allCols = true ∧
    rowsStrictSorted r.df.rows ∧
    (∀ df : Frame, df.hasAdjClose = false →
      ∀ row ∈ (_normalize_ohlcv df).rows, row.AdjClose = row.Close) := by
  have hchain : ∀ s0 e0 : Int,
      (.ok (fetchChain p ticker s0 e0).1 :
          Except String FetchResult) = .ok r →
      (r.source = "empty" → r.df.rows = []) ∧
      r.df.allCols = true ∧ rowsStrictSorted r.df.rows := by
    intro s0 e0 h
    injection h with h
    exact h ▸ fetchChain_invariants p ticker s0 e0 hs
  have hmain : (r.source = "empty" → r.df.rows = []) ∧
      r.df.allCols = true ∧ rowsStrictSorted r.df.rows := by
    unfold download_price_data at hr
    cases period with
    | none =>
      dsimp only at hr
      cases hws : _weekend_safe_range now none start stop with
      | error msg => rw [hws] at hr; exact absurd hr (by simp)
      | ok se =>
        obtain ⟨s0, e0⟩ := se
        rw [hws] at hr
        exact hchain s0 e0 hr
    | some per =>
      by_cases hf :
          (_yahoo_download p ticker ⟨some per, start, stop⟩).1.rows.isEmpty = true
      · simp only [hf, if_true] at hr
        cases hws : _weekend_safe_range now (some per) start stop with
        | error msg => rw [hws] at hr; exact absurd hr (by simp)
        | ok se =>
          obtain ⟨s0, e0⟩ := se
          rw [hws] at hr
          exact hchain s0 e0 hr
      · simp only [hf, Bool.false_eq_true, if_false] at hr
        injection hr with hr
        refine hr ▸ ⟨fun h => ?_, rfl, ?_⟩
        · simp at h
        · exact normalize_ohlcv_sorted _
            (yahoo_download_sorted p ticker _ (fun df h => hs.1 _ _ df h))
  exact ⟨hmain.1, hmain.2.1, hmain.2.2, normalize_ohlcv_adjclose_backfill⟩

/-- A Yahoo answer whose rows are out of order (dates 5 then 3). -/
def badFrame : Frame :=
  ⟨true, true, true, true, true, true,
   [⟨5, some 1, some 1, some 1, some 1, some 1, some 1⟩,
    ⟨3, some 1, some 1, some 1, some 1, some 1, some 1⟩]⟩

/-- Providers whose Yahoo oracle always returns the unsorted `badFrame`. -/
def envC3 : Providers :=
  ⟨true, fun _ _ => some badFrame, fun _ _ _ => none, fun _ => none⟩

/-- C3 counterexample: `download_price_data` does not sort (or deduplicate)
what the primary provider returns — `_normalize_ohlcv` only fixes columns —
so a FetchResult with source `"yahoo"` can carry rows that are not sorted
ascending by date. -/
theorem c3_counterexample_unsorted :
    (download_price_data envC3 0 "TT" none (some 0) (some 9)).1 =
      .ok ⟨_normalize_ohlcv badFrame, "yahoo"⟩ ∧
    ("yahoo" : String) ≠ "empty" ∧
    ¬ rowsStrictSorted (_normalize_ohlcv badFrame).rows := by
  refine ⟨by decide, by decide, ?_⟩
  unfold rowsStrictSorted
  decide

/-- Witness for C3: against `envC2` (single sorted Yahoo answer) the
resulting FetchResult has all six columns and strictly sorted rows. -/
theorem c3_fetchresult_invariants_witness :
    (_normalize_ohlcv (_to_datetime_index wFrame)).allCols = true ∧
    rowsStrictSorted (_normalize_ohlcv (_to_datetime_index wFrame)).rows := by
  have hs : SortedProviders envC2 := by
    refine ⟨fun t q df h => ?_, fun t a b df h => by simp [envC2] at h,
      fun sym df h => by simp [envC2] at h⟩
    unfold envC2 at h
    dsimp only at h
    split at h
    · injection h with h
      subst h
      unfold rowsStrictSorted
      decide
    · exact Option.noConfusion h
  have hr : (download_price_data envC2 7 "AAPL" none (some 0) (some 5)).1 =
      .ok ⟨_normalize_ohlcv (_to_datetime_index wFrame), "yahoo"⟩ := by decide
  have H := c3_fetchresult_invariants envC2 7 "AAPL" none (some 0) (some 5)
    ⟨_normalize_ohlcv (_to_datetime_index wFrame), "yahoo"⟩ hs hr
  exact ⟨H.2.1, H.2.2.1⟩

/-- Python `int()` truncation does not exceed a nonnegative rational. -/
theorem truncQ_le_of_nonneg (q : ℚ) (h : 0 ≤ q) : (truncQ q : ℚ) ≤ q := by
  have hnum : 0 ≤ q.num := Rat.num_nonneg.mpr h
  have heq : truncQ q = ⌊q⌋ := by
    unfold truncQ
    rw [Rat.floor_def]
    exact Int.tdiv_eq_ediv hnum (by positivity)
  rw [heq]
  exact Int.floor_le q

/-- C9: `log_manual_sell` is atomic on failure — if the ticker is not in the
portfolio, or the requested shares exceed the (nonnegative) shares owned, or
no market data is available, or the sell limit is not reached (open below
the limit and high below the limit, NaNs comparing false), then the cash and
the portfolio are returned unchanged. -/
theorem c9_manual_sell_atomic (p : Providers) (now : Int)
    (sell_price shares_sold : ℚ) (ticker : String) (cash : ℚ)
    (pf : List Position) (reason : Option String)
    (h :
      ticker ∉ pf.map Position.ticker ∨
      (0 ≤ ((pf.find? (fun r => r.ticker = ticker)).getD dPos).shares ∧
        shares_sold > ((pf.find? (fun r => r.ticker = ticker)).getD dPos).shares) ∨
      (fetch_daily p now ticker).df.rows = [] ∨
      (optGE (_lastBar (fetch_daily p now ticker).df).1 sell_price = false ∧
        optGE (_lastBar (fetch_daily p now ticker).df).2.1 sell_price = false)) :
    log_manual_sell p now sell_price shares_sold ticker cash pf reason =
      (cash, pf) := by
  unfold log_manual_sell
  by_cases h1 : reason = some "1"
  · rw [if_pos h1]
  · rw [if_neg h1]
    by_cases h2 : ticker ∈ pf.map Position.ticker
    case neg => rw [if_pos h2]
    rw [if_neg (not_not_intro h2)]
    dsimp only
    by_cases h3 : shares_sold >
        ((truncQ ((pf.find? (fun r => r.ticker = ticker)).getD dPos).shares : Int) : ℚ)
    · rw [if_pos h3]
    · rw [if_neg h3]
      by_cases h4 : (fetch_daily p now ticker).df.rows.isEmpty = true
      · rw [if_pos h4]
      · rw [if_neg h4]
        rcases h with h | ⟨hpos, hgt⟩ | hdata | ⟨ho, hh⟩
        · exact absurd h (not_not_intro h2)
        · exact absurd (lt_of_le_of_lt (truncQ_le_of_nonneg _ hpos) hgt) h3
        · exact absurd (by rw [hdata]; rfl :
            (fetch_daily p now ticker).df.rows.isEmpty = true) h4
        · simp only [ho, hh, Bool.false_eq_true, if_false]

/-- Witness for C9: selling a ticker absent from an empty portfolio leaves
cash and portfolio untouched. -/
theorem c9_manual_sell_atomic_witness :
    log_manual_sell envEmpty 0 10 1 "ZZ" 50 [] none = (50, []) :=
  c9_manual_sell_atomic envEmpty 0 10 1 "ZZ" 50 [] none (Or.inl (by decide))

/-- Python `round` of an integer is that integer. -/
theorem bankRound_intCast (m : Int) : bankRound (m : ℚ) = m := by
  unfold bankRound ratFloor
  rw [Rat.num_intCast, Rat.den_intCast]
  have h1 : Int.ediv m ((1 : ℕ) : Int) = m := by
    simp only [Nat.cast_one]
    exact Int.ediv_one m
  rw [h1]
  simp only [sub_self]
  norm_num

/-- A two-decimal price times an integer share count is already at two
decimals, so `round(price * shares, 2)` is exact. -/
theorem round2_mul_intCast (q : ℚ) (n : Int) :
    round2 (round2 q * (n : ℚ)) = round2 q * n := by
  unfold round2
  have h : ((bankRound (q * 100) : ℚ) / 100 * n) * 100 =
      ((bankRound (q * 100) * n : Int) : ℚ) := by
    push_cast
    ring
  rw [h, bankRound_intCast]
  push_cast
  ring

/-- C10 (amended): during daily pricing, a position whose stored ticker is
already uppercase, with a non-zero stop whose day low is at or below it and
an open price available (possibly backfilled from close), is sold entirely:
the row is removed and cash grows by `round(min(open, stop), 2)` times the
integer share count (the source's `round(value, 2)` is exact there). -/
theorem c10_stop_loss_sells_position (p : Providers) (now : Int)
    (stock : Position) (cash : ℚ)
    (hup : strUpper stock.ticker = stock.ticker)
    (hstop : stock.stop_loss ≠ 0)
    (hne : (fetch_daily p now stock.ticker).df.rows ≠ [])
    (ov : ℚ)
    (ho : (_lastBar (fetch_daily p now stock.ticker).df).1 = some ov)
    (hl : optLE (_lastBar (fetch_daily p now stock.ticker).df).2.2.1
      stock.stop_loss = true) :
    process_portfolio p now [stock] cash =
      ([], cash + round2 (min ov stock.stop_loss) *
        ((truncQ stock.shares : Int) : ℚ)) := by
  unfold process_portfolio
  simp only [List.foldl_cons, List.foldl_nil]
  unfold process_position
  rw [hup]
  dsimp only
  simp only [isEmpty_false_of_ne_nil hne, Bool.false_eq_true, if_false]
  rw [if_pos ⟨hstop, hl⟩]
  rw [ho]
  dsimp only
  rw [← min_def]
  rw [round2_mul_intCast]
  simp [log_sell]

/-- A day bar with open 4, high 6, low 1, close 5 — low at or below a stop
of 5. -/
def stopFrame : Frame :=
  ⟨true, true, true, true, true, true,
   [⟨0, some 4, some 6, some 1, some 5, some 5, some 10⟩]⟩

/-- Providers whose Yahoo oracle answers only the ticker `AB`. -/
def envStop : Providers :=
  ⟨true, fun t _ => if t = "AB" then some stopFrame else none,
   fun _ _ _ => none, fun _ => none⟩

/-- A position stored with a lowercase ticker. -/
def posLower : Position := ⟨"ab", 1, 5, 10, 10⟩

/-- The same position stored uppercase. -/
def posUpper : Position := ⟨"AB", 1, 5, 10, 10⟩

/-- C10 counterexample: the loop uppercases the ticker before fetching and
before `log_sell`, but `log_sell` filters by exact string equality, so a
position stored as `"ab"` hits its stop (non-zero stop 5, day low 1 ≤ 5,
data present) yet its row is NOT removed from the returned portfolio. -/
theorem c10_counterexample_lowercase_ticker :
    posLower.stop_loss ≠ 0 ∧
    (fetch_daily envStop 0 (strUpper posLower.ticker)).df.rows ≠ [] ∧
    optLE (_lastBar (fetch_daily envStop 0 (strUpper posLower.ticker)).df).2.2.1
      posLower.stop_loss = true ∧
    (process_portfolio envStop 0 [posLower] 100).1 = [posLower] := by
  refine ⟨by decide, by decide, by decide, by decide⟩

/-- Witness for C10 at the uppercase position `AB`: the stop fires, the row
is removed, and cash grows by `round(min(4, 5), 2) * 1`. -/
theorem c10_stop_loss_sells_position_witness :
    process_portfolio envStop 0 [posUpper] 100 =
      ([], 100 + round2 (min 4 posUpper.stop_loss) *
        ((truncQ posUpper.shares : Int) : ℚ)) :=
  c10_stop_loss_sells_position envStop 0 posUpper 100 (by decide) (by decide)
    (by decide) 4 (by decide) (by decide)
